import Mathlib

/-
  Verification of the pan/zoom viewport core of the collaboration-intro
  repository: the clamp policy, the zoom-anchor controller, the visible
  rectangle with buffer, and the background grid generator.

  The source components (src/src/app/PanExample.tsx, src/unnamed/part_007,
  src/unnamed/part_003) compute with JavaScript numbers; the model uses ℚ,
  so every statement is exact arithmetic.  All functions are shallow
  embeddings of the corresponding TypeScript functions; React state
  (position, zoom, viewport) is passed explicitly.
-/

namespace PanZoom

/-- interface Point / interface Position: a pair of coordinates. -/
structure Position where
  x : ℚ
  y : ℚ
deriving DecidableEq

/-- interface Viewport { left, top, right, bottom }. -/
structure Viewport where
  left : ℚ
  top : ℚ
  right : ℚ
  bottom : ℚ
deriving DecidableEq

/-- The mutable component state that pan/zoom commits update:
`position` (the pan offset) and `zoom`. -/
structure State where
  pan : Position
  zoom : ℚ
deriving DecidableEq

/-- const MIN_ZOOM = 0.3 -/
def MIN_ZOOM : ℚ := 3 / 10

/-- const MAX_ZOOM = 1.8 -/
def MAX_ZOOM : ℚ := 9 / 5

/-- const ZOOM_STEP = 0.05 -/
def ZOOM_STEP : ℚ := 1 / 20

/-- const SPACING = 50 -/
def SPACING : ℚ := 50

/-- const BUFFER_FACTOR = 1.5 -/
def BUFFER_FACTOR : ℚ := 3 / 2

/-- const WORLD_SIZE = 10000 -/
def WORLD_SIZE : ℚ := 10000

/-- const WORLD_BOUNDS = { left: -WORLD_SIZE/2, right: WORLD_SIZE/2,
top: -WORLD_SIZE/2, bottom: WORLD_SIZE/2 }. -/
def WORLD_BOUNDS : Viewport :=
  { left := -WORLD_SIZE / 2
    top := -WORLD_SIZE / 2
    right := WORLD_SIZE / 2
    bottom := WORLD_SIZE / 2 }

/-- `clampPosition` from PanExample.tsx lines 47-55 (identical in part_007
lines 52-63).  In the source it is a `useCallback` closure over the
component state `zoom`; that captured zoom is the explicit first argument
here.  Note that callers inside `handleZoom` / `onWheel` therefore clamp
with the zoom of the current render, not with the zoom they are about to
commit. -/
def clampPosition (zoom : ℚ) (pos : Position) (containerWidth containerHeight : ℚ) :
    Position :=
  let scaledWidth := WORLD_SIZE * zoom
  let scaledHeight := WORLD_SIZE * zoom
  { x := min (WORLD_SIZE / 4) (max (-scaledWidth + containerWidth - WORLD_SIZE / 4) pos.x)
    y := min (WORLD_SIZE / 4) (max (-scaledHeight + containerHeight - WORLD_SIZE / 4) pos.y) }

/-- The render-time transform, per axis: the canvas does
`ctx.translate(position.x, position.y); ctx.scale(zoom, zoom)` (PanExample
lines 120-121; the Konva Stage in part_007 sets `x/y` and `scaleX/scaleY`
the same way), so a world coordinate lands at `world * zoom + pan`. -/
def worldToScreen (pan zoom wld : ℚ) : ℚ := wld * zoom + pan

/-- `adjustCoordinates` from part_003 lines 131-141, per axis:
`(x - offsetX) / scaleX`; also the `zoomPoint` computation inside
`handleZoom` / `onWheel`. -/
def screenToWorld (pan zoom scr : ℚ) : ℚ := (scr - pan) / zoom

/-- The zoom update `Math.max(MIN_ZOOM, Math.min(MAX_ZOOM, zoom + delta))`
shared by `handleZoom` and `bind.onWheel` in all three components. -/
def updateZoom (zoom delta : ℚ) : ℚ := max MIN_ZOOM (min MAX_ZOOM (zoom + delta))

/-- The pre-clamp pan computed by `handleZoom` / `bind.onWheel` for anchor
`(ax, ay)` (PanExample lines 147-155 and 201-209):
`zoomPoint = (anchor - position) / zoom`,
`newPosition = anchor - zoomPoint * newZoom`. -/
def zoomRawPan (s : State) (ax ay delta : ℚ) : Position :=
  let newZoom := updateZoom s.zoom delta
  { x := ax - (ax - s.pan.x) / s.zoom * newZoom
    y := ay - (ay - s.pan.y) / s.zoom * newZoom }

/-- One zoom commit in PanExample / part_007 (wheel-driven and
button-driven zoom run the same code; they differ only in the anchor:
pointer position vs window center).  `clampPosition` is invoked with the
pre-operation zoom, because the closure captured the render state. -/
def zoomStep (s : State) (ax ay delta w h : ℚ) : State :=
  { pan := clampPosition s.zoom (zoomRawPan s ax ay delta) w h
    zoom := updateZoom s.zoom delta }

/-- One drag commit in PanExample lines 170-176 / part_007 lines 143-149:
add the delta to the pan, then clamp at the current zoom. -/
def dragStep (s : State) (dx dy w h : ℚ) : State :=
  { pan := clampPosition s.zoom { x := s.pan.x + dx, y := s.pan.y + dy } w h
    zoom := s.zoom }

/-- One drag commit in the combined canvas part_003 (bind.onDrag, lines
114-121): the delta is added with no clamping at all. -/
def dragStepCombined (s : State) (dx dy : ℚ) : State :=
  { pan := { x := s.pan.x + dx, y := s.pan.y + dy }
    zoom := s.zoom }

/-- `handleZoom` in part_003 lines 109-112: updates the zoom only; the
pan is left untouched and nothing is clamped. -/
def handleZoomCombined (s : State) (delta : ℚ) : State :=
  { pan := s.pan
    zoom := updateZoom s.zoom delta }

/-- `updateViewport` from PanExample lines 58-76 / part_007 lines 66-84:
the world rectangle currently shown, expanded by the buffer, clamped to
the world bounds.  A pure function of `(pan, zoom, containerSize)`: in
the source it is recomputed from exactly these and written with
`setViewport`, the only writer of that state. -/
def updateViewport (pan : Position) (zoom w h : ℚ) : Viewport :=
  let viewportLeft := -pan.x / zoom
  let viewportTop := -pan.y / zoom
  let viewportRight := (w - pan.x) / zoom
  let viewportBottom := (h - pan.y) / zoom
  let bufferX := (viewportRight - viewportLeft) * (BUFFER_FACTOR - 1) / 2
  let bufferY := (viewportBottom - viewportTop) * (BUFFER_FACTOR - 1) / 2
  { left := max WORLD_BOUNDS.left (viewportLeft - bufferX)
    top := max WORLD_BOUNDS.top (viewportTop - bufferY)
    right := min WORLD_BOUNDS.right (viewportRight + bufferX)
    bottom := min WORLD_BOUNDS.bottom (viewportBottom + bufferY) }

/-- `Math.floor(a / SPACING) * SPACING` for the grid loop start.  Grid
coordinates are integer multiples of SPACING = 50, so they live in ℤ. -/
def gridStart (a : ℚ) : ℤ := 50 * ⌊a / SPACING⌋

/-- `Math.ceil(a / SPACING) * SPACING` for the grid loop end. -/
def gridEnd (a : ℚ) : ℤ := 50 * ⌈a / SPACING⌉

/-- One axis of the grid loop in PanExample lines 86-99 / part_007 lines
93-106: `for (let x = startX; x <= endX; x += SPACING)`.  The loop body
runs `(endX - startX) / SPACING + 1` times when `startX <= endX` and not
at all otherwise. -/
def gridXs (lo hi : ℚ) : List ℤ :=
  let s := gridStart lo
  let e := gridEnd hi
  if s ≤ e then (List.range ((e - s).toNat / 50 + 1)).map (fun k : ℕ => s + 50 * (k : ℤ))
  else []

/-- The nested grid loop: outer over x, inner over y, pushing `{ x, y }`. -/
def gridPoints (v : Viewport) : List (ℤ × ℤ) :=
  (gridXs v.left v.right).flatMap fun x => (gridXs v.top v.bottom).map fun y => (x, y)

/-- `generateDots` from the combined canvas part_003 lines 75-106: dots at
`startX + i * SPACING, startY + j * SPACING` with `startX = -position.x / zoom`
(resp. y), for `i` up to `ceil(CANVAS_WIDTH / SPACING)` and `j` up to
`ceil(CANVAS_HEIGHT / SPACING)` inclusive, with a fixed
`CANVAS_WIDTH = CANVAS_HEIGHT = 2000`.  Coordinates are rationals, not
lattice multiples of SPACING, so the dots live in `ℚ × ℚ`. -/
def generateDots (pan : Position) (zoom : ℚ) : List (ℚ × ℚ) :=
  let canvasW : ℚ := 2000
  let canvasH : ℚ := 2000
  let startX := -pan.x / zoom
  let startY := -pan.y / zoom
  let dotsX := (⌈canvasW / SPACING⌉).toNat
  let dotsY := (⌈canvasH / SPACING⌉).toNat
  (List.range (dotsX + 1)).flatMap fun i : ℕ =>
    (List.range (dotsY + 1)).map fun j : ℕ =>
      (startX + (i : ℚ) * SPACING, startY + (j : ℚ) * SPACING)

/-- `disabled={zoom >= MAX_ZOOM}` on the zoom-in button. -/
def zoomInDisabled (zoom : ℚ) : Bool := zoom ≥ MAX_ZOOM

/-- `disabled={zoom <= MIN_ZOOM}` on the zoom-out button. -/
def zoomOutDisabled (zoom : ℚ) : Bool := zoom ≤ MIN_ZOOM

/-- `n` repeated zoom-out steps (`handleZoom(-ZOOM_STEP)`), tracking only
the zoom scalar. -/
def zoomOutN : ℕ → ℚ → ℚ
  | 0, z => z
  | n + 1, z => zoomOutN n (updateZoom z (-ZOOM_STEP))

/-- `event.deltaY < 0 ? ZOOM_STEP : -ZOOM_STEP` from `bind.onWheel`
(PanExample line 193, part_007 line 166, part_003 line 126). -/
def wheelZoomDelta (deltaY : ℚ) : ℚ := if deltaY < 0 then ZOOM_STEP else -ZOOM_STEP

/-- The Bounds and Clamp Policy exactly as the spec words it (one axis):
`max_pan = W / 4`, `min_pan = -(W * zoom) + containerSize - W / 4`,
result `min(max_pan, max(min_pan, pan))`. -/
def clampSpecAxis (zoom containerSize p : ℚ) : ℚ :=
  let maxPan := WORLD_SIZE / 4
  let minPan := -(WORLD_SIZE * zoom) + containerSize - WORLD_SIZE / 4
  min maxPan (max minPan p)

/-- `computeVisibleRect` exactly as the spec words it: the shown world
rectangle has corners `(-pan)/zoom` and `(containerSize - pan)/zoom`; it
is expanded on each side by `(BUFFER_FACTOR - 1)/2` of its own
width/height, then clamped to the world bounds. -/
def visibleRectSpec (pan : Position) (zoom w h : ℚ) : Viewport :=
  let shownLeft := (-pan.x) / zoom
  let shownTop := (-pan.y) / zoom
  let shownRight := (w - pan.x) / zoom
  let shownBottom := (h - pan.y) / zoom
  let ex := (BUFFER_FACTOR - 1) / 2 * (shownRight - shownLeft)
  let ey := (BUFFER_FACTOR - 1) / 2 * (shownBottom - shownTop)
  { left := max WORLD_BOUNDS.left (shownLeft - ex)
    top := max WORLD_BOUNDS.top (shownTop - ey)
    right := min WORLD_BOUNDS.right (shownRight + ex)
    bottom := min WORLD_BOUNDS.bottom (shownBottom + ey) }

/-- Re-clamping with a lower bound that is at most the original lower
bound changes nothing: `min A (max B' (min A (max B p))) = min A (max B p)`
whenever `B' ≤ B`.  With `B' = B` this is idempotence of the clamp; with
`B' ≤ B` it covers clamping again at a larger zoom (the lower pan bound
decreases as zoom grows). -/
theorem reclamp_eq (A B B' p : ℚ) (h : B' ≤ B) :
    min A (max B' (min A (max B p))) = min A (max B p) := by
  simp only [min_def, max_def]
  split_ifs <;> linarith

theorem clampPosition_min_pan_le (z w h' : ℚ) (p : Position) (z' : ℚ) (hz : z ≤ z') :
    clampPosition z' (clampPosition z p w h') w h' = clampPosition z p w h' := by
  have hx : -(WORLD_SIZE * z') + w - WORLD_SIZE / 4 ≤ -(WORLD_SIZE * z) + w - WORLD_SIZE / 4 := by
    have : WORLD_SIZE * z ≤ WORLD_SIZE * z' := by
      have hW : (0 : ℚ) ≤ WORLD_SIZE := by norm_num [WORLD_SIZE]
      exact mul_le_mul_of_nonneg_left hz hW
    linarith
  have hy : -(WORLD_SIZE * z') + h' - WORLD_SIZE / 4 ≤ -(WORLD_SIZE * z) + h' - WORLD_SIZE / 4 := by
    have : WORLD_SIZE * z ≤ WORLD_SIZE * z' := by
      have hW : (0 : ℚ) ≤ WORLD_SIZE := by norm_num [WORLD_SIZE]
      exact mul_le_mul_of_nonneg_left hz hW
    linarith
  simp only [clampPosition, Position.mk.injEq]
  exact ⟨reclamp_eq _ _ _ _ hx, reclamp_eq _ _ _ _ hy⟩

/-- C9: for every `(pan, zoom, containerSize)` the clamp policy is
idempotent — `clampPosition` applied twice gives the same result as
applied once, with no restriction on the arguments (in particular also in
the degenerate case where the lower pan bound exceeds the upper one). -/
theorem clampPosition_idempotent (pos : Position) (zoom w h : ℚ) :
    clampPosition zoom (clampPosition zoom pos w h) w h = clampPosition zoom pos w h :=
  clampPosition_min_pan_le zoom w h pos zoom le_rfl

/-- C1: for every proposed pan `p`, zoom in `[MIN_ZOOM, MAX_ZOOM]` and
container size `(w, h)`, `clampPosition` returns, independently on each
axis, `min(W/4, max(-(W*zoom) + containerSize - W/4, p))` with
`W = WORLD_SIZE = 10000` (containerSize is `w` on x and `h` on y). -/
theorem clampPosition_matches_spec (p : Position) (z w h : ℚ)
    (h1 : MIN_ZOOM ≤ z) (h2 : z ≤ MAX_ZOOM) :
    clampPosition z p w h = { x := clampSpecAxis z w p.x, y := clampSpecAxis z h p.y } := rfl

/-- Witness for C1, including the spec scenario: zoom 1, container width
800, proposed `pan.x = 50000` is clamped to exactly `2500`. -/
theorem clampPosition_matches_spec_witness :
    MIN_ZOOM ≤ (1 : ℚ) ∧ (1 : ℚ) ≤ MAX_ZOOM ∧
    clampPosition 1 { x := 50000, y := 0 } 800 600 =
      { x := clampSpecAxis 1 800 50000, y := clampSpecAxis 1 600 0 } ∧
    clampPosition 1 { x := 50000, y := 0 } 800 600 = { x := 2500, y := 0 } := by
  refine ⟨by norm_num [MIN_ZOOM], by norm_num [MAX_ZOOM], ?_,
    by norm_num [clampPosition, WORLD_SIZE, Position.mk.injEq, min_def, max_def]⟩
  exact clampPosition_matches_spec { x := 50000, y := 0 } 1 800 600
    (by norm_num [MIN_ZOOM]) (by norm_num [MAX_ZOOM])

/-- C5: for every point `p`, every pan, and every zoom in
`[MIN_ZOOM, MAX_ZOOM]` (hence nonzero), `screenToWorld` undoes
`worldToScreen` exactly, per axis. -/
theorem screen_world_roundtrip (pan zoom p : ℚ)
    (h1 : MIN_ZOOM ≤ zoom) (h2 : zoom ≤ MAX_ZOOM) :
    screenToWorld pan zoom (worldToScreen pan zoom p) = p := by
  have hz : zoom ≠ 0 := by
    have : (0 : ℚ) < 3 / 10 := by norm_num
    have hmz : (0 : ℚ) < zoom := lt_of_lt_of_le this (by simpa [MIN_ZOOM] using h1)
    exact ne_of_gt hmz
  simp only [screenToWorld, worldToScreen]
  field_simp

/-- Witness for C5 at `pan = 7`, `zoom = 1`, `p = 42`. -/
theorem screen_world_roundtrip_witness :
    MIN_ZOOM ≤ (1 : ℚ) ∧ (1 : ℚ) ≤ MAX_ZOOM ∧
    screenToWorld 7 1 (worldToScreen 7 1 42) = 42 :=
  ⟨by norm_num [MIN_ZOOM], by norm_num [MAX_ZOOM],
    screen_world_roundtrip 7 1 42 (by norm_num [MIN_ZOOM]) (by norm_num [MAX_ZOOM])⟩

/-- C7: for every `(pan, zoom, containerSize)`, the viewport computed by
`updateViewport` equals the spec description: the shown world rectangle
(corners `(-pan)/zoom` and `(containerSize - pan)/zoom`) expanded on each
side by `(BUFFER_FACTOR - 1)/2 = 1/4` of its own width/height, then
clamped to the world bounds `[-5000, 5000]` per axis.  Both sides are
pure functions of `(pan, zoom, containerSize)`. -/
theorem updateViewport_matches_spec (pan : Position) (zoom w h : ℚ) :
    updateViewport pan zoom w h = visibleRectSpec pan zoom w h := by
  simp only [updateViewport, visibleRectSpec, Viewport.mk.injEq]
  refine ⟨?_, ?_, ?_, ?_⟩ <;> · congr 1 <;> ring

/-- C10: the wheel handler zooms in by `ZOOM_STEP` exactly when
`deltaY < 0` and out by `ZOOM_STEP` otherwise; in particular `deltaY = 0`
zooms out one step rather than leaving the zoom unchanged. -/
theorem wheel_delta_sign :
    (∀ dy : ℚ, wheelZoomDelta dy = ZOOM_STEP ↔ dy < 0) ∧
    (∀ dy : ℚ, ¬dy < 0 → wheelZoomDelta dy = -ZOOM_STEP) ∧
    wheelZoomDelta 0 = -ZOOM_STEP := by
  refine ⟨fun dy => ?_, fun dy hdy => by simp [wheelZoomDelta, hdy], by norm_num [wheelZoomDelta]⟩
  unfold wheelZoomDelta
  split_ifs with hlt
  · simp [hlt]
  · simp only [hlt, iff_false]
    norm_num [ZOOM_STEP]

/-- Witness for C10 at `deltaY = 0` (and `deltaY = -1`). -/
theorem wheel_delta_sign_witness :
    ¬(0 : ℚ) < 0 ∧ wheelZoomDelta 0 = -ZOOM_STEP ∧ wheelZoomDelta (-1) = ZOOM_STEP :=
  ⟨by norm_num, wheel_delta_sign.2.1 0 (by norm_num), (wheel_delta_sign.1 (-1)).mpr (by norm_num)⟩

/-- C2: for every zoom-anchor operation (wheel-driven and button-driven
zoom share the code) with anchor `(ax, ay)`, if `zoom + delta` stays in
`[MIN_ZOOM, MAX_ZOOM]` and the bounds clamp does not alter the resulting
pan, then the anchor world coordinate is preserved:
`(a - pan')/zoom' = (a - pan)/zoom` on each axis, and
`zoom' = zoom + delta`. -/
theorem zoom_anchor_preserved (s : State) (ax ay delta w h : ℚ)
    (hz : MIN_ZOOM ≤ s.zoom)
    (hlo : MIN_ZOOM ≤ s.zoom + delta) (hhi : s.zoom + delta ≤ MAX_ZOOM)
    (hclamp : clampPosition s.zoom (zoomRawPan s ax ay delta) w h = zoomRawPan s ax ay delta) :
    (zoomStep s ax ay delta w h).zoom = s.zoom + delta ∧
    screenToWorld (zoomStep s ax ay delta w h).pan.x (zoomStep s ax ay delta w h).zoom ax
      = screenToWorld s.pan.x s.zoom ax ∧
    screenToWorld (zoomStep s ax ay delta w h).pan.y (zoomStep s ax ay delta w h).zoom ay
      = screenToWorld s.pan.y s.zoom ay := by
  have hmz : (0 : ℚ) < MIN_ZOOM := by norm_num [MIN_ZOOM]
  have hz0 : s.zoom ≠ 0 := ne_of_gt (lt_of_lt_of_le hmz hz)
  have hz0' : s.zoom + delta ≠ 0 := ne_of_gt (lt_of_lt_of_le hmz hlo)
  have hnz : updateZoom s.zoom delta = s.zoom + delta := by
    unfold updateZoom
    rw [min_eq_right hhi, max_eq_right hlo]
  have hpan : (zoomStep s ax ay delta w h).pan = zoomRawPan s ax ay delta := by
    simp only [zoomStep]
    exact hclamp
  refine ⟨by simp [zoomStep, hnz], ?_, ?_⟩
  · rw [hpan]
    simp only [zoomStep, zoomRawPan, hnz, screenToWorld]
    field_simp
    ring
  · rw [hpan]
    simp only [zoomStep, zoomRawPan, hnz, screenToWorld]
    field_simp
    ring

/-- Witness for C2, the spec scenario: container 800 by 600, initial
`pan = (0,0), zoom = 1`, one wheel zoom-in step at pointer `(400, 300)`:
the new zoom is `21/20 = 1.05` and `(400 - pan.x)/1.05 = 400`. -/
theorem zoom_anchor_preserved_witness :
    MIN_ZOOM ≤ ({ pan := { x := 0, y := 0 }, zoom := 1 } : State).zoom ∧
    MIN_ZOOM ≤ ({ pan := { x := 0, y := 0 }, zoom := 1 } : State).zoom + 1 / 20 ∧
    ({ pan := { x := 0, y := 0 }, zoom := 1 } : State).zoom + 1 / 20 ≤ MAX_ZOOM ∧
    clampPosition 1 (zoomRawPan { pan := { x := 0, y := 0 }, zoom := 1 } 400 300 (1 / 20)) 800 600
      = zoomRawPan { pan := { x := 0, y := 0 }, zoom := 1 } 400 300 (1 / 20) ∧
    (zoomStep { pan := { x := 0, y := 0 }, zoom := 1 } 400 300 (1 / 20) 800 600).zoom = 21 / 20 ∧
    screenToWorld (zoomStep { pan := { x := 0, y := 0 }, zoom := 1 } 400 300 (1 / 20) 800 600).pan.x
      (zoomStep { pan := { x := 0, y := 0 }, zoom := 1 } 400 300 (1 / 20) 800 600).zoom 400 = 400 := by
  have hclamp :
      clampPosition 1 (zoomRawPan { pan := { x := 0, y := 0 }, zoom := 1 } 400 300 (1 / 20)) 800 600
        = zoomRawPan { pan := { x := 0, y := 0 }, zoom := 1 } 400 300 (1 / 20) := by
    norm_num [clampPosition, zoomRawPan, updateZoom, WORLD_SIZE, MIN_ZOOM, MAX_ZOOM,
      Position.mk.injEq, min_def, max_def]
  have h := zoom_anchor_preserved { pan := { x := 0, y := 0 }, zoom := 1 } 400 300 (1 / 20) 800 600
    (by norm_num [MIN_ZOOM]) (by norm_num [MIN_ZOOM]) (by norm_num [MAX_ZOOM]) hclamp
  refine ⟨by norm_num [MIN_ZOOM], by norm_num [MIN_ZOOM], by norm_num [MAX_ZOOM], hclamp, ?_, ?_⟩
  · rw [h.1]; norm_num
  · rw [h.2.1]; norm_num [screenToWorld]

/-- C3 (amended): in PanExample/part_007 every commit passes the
resulting pan through the clamp evaluated at the pre-operation zoom, so
the committed pan is a fixed point of the clamp for the pre-operation
zoom — and also for the committed zoom whenever the operation does not
decrease the zoom (drag keeps the zoom, so its commit is a fixed point for
the committed zoom outright).  In the combined canvas (part_003) drag and
zoom commits bypass the clamp entirely. -/
theorem commit_clamped_at_preop_zoom :
    (∀ (s : State) (dx dy w h : ℚ),
        clampPosition (dragStep s dx dy w h).zoom (dragStep s dx dy w h).pan w h
          = (dragStep s dx dy w h).pan) ∧
    (∀ (s : State) (ax ay delta w h : ℚ),
        clampPosition s.zoom (zoomStep s ax ay delta w h).pan w h
          = (zoomStep s ax ay delta w h).pan) ∧
    (∀ (s : State) (ax ay delta w h : ℚ), s.zoom ≤ (zoomStep s ax ay delta w h).zoom →
        clampPosition (zoomStep s ax ay delta w h).zoom (zoomStep s ax ay delta w h).pan w h
          = (zoomStep s ax ay delta w h).pan) ∧
    (∀ (s : State) (dx dy delta : ℚ),
        (dragStepCombined s dx dy).pan = { x := s.pan.x + dx, y := s.pan.y + dy } ∧
        (handleZoomCombined s delta).pan = s.pan) := by
  refine ⟨?_, ?_, ?_, ?_⟩
  · intro s dx dy w h
    exact clampPosition_min_pan_le s.zoom w h _ s.zoom le_rfl
  · intro s ax ay delta w h
    exact clampPosition_min_pan_le s.zoom w h _ s.zoom le_rfl
  · intro s ax ay delta w h hle
    exact clampPosition_min_pan_le s.zoom w h _ _ hle
  · intro s dx dy delta
    exact ⟨rfl, rfl⟩

/-- Witness for C3 (amended), third conjunct: a zoom-in step from
`zoom = 1` does not decrease the zoom, and its commit is a clamp fixed
point for the committed zoom. -/
theorem commit_clamped_at_preop_zoom_witness :
    ({ pan := { x := 0, y := 0 }, zoom := 1 } : State).zoom ≤
      (zoomStep { pan := { x := 0, y := 0 }, zoom := 1 } 400 300 (1 / 20) 800 600).zoom ∧
    clampPosition (zoomStep { pan := { x := 0, y := 0 }, zoom := 1 } 400 300 (1 / 20) 800 600).zoom
      (zoomStep { pan := { x := 0, y := 0 }, zoom := 1 } 400 300 (1 / 20) 800 600).pan 800 600
      = (zoomStep { pan := { x := 0, y := 0 }, zoom := 1 } 400 300 (1 / 20) 800 600).pan := by
  have hle : ({ pan := { x := 0, y := 0 }, zoom := 1 } : State).zoom ≤
      (zoomStep { pan := { x := 0, y := 0 }, zoom := 1 } 400 300 (1 / 20) 800 600).zoom := by
    norm_num [zoomStep, updateZoom, MIN_ZOOM, MAX_ZOOM, min_def, max_def]
  exact ⟨hle, commit_clamped_at_preop_zoom.2.2.1 _ 400 300 (1 / 20) 800 600 hle⟩

/-- Counterexample for C3 as stated.  First: in the combined canvas
(part_003) a drag of `dx = -50000` from the initial state commits a pan
that no clamp would return.  Second: even in PanExample/part_007, a drag
to the left edge (container 4000 by 600) followed by one wheel zoom-out
commits `pan.x = -8075` at `zoom = 19/20`, but the clamp at `19/20`
maps `-8075` to `-8000` — the committed pan is not a fixed point of the
clamp for the committed zoom, because the commit clamps with the stale
pre-operation zoom. -/
theorem commit_clamp_policy_cex :
    (dragStepCombined { pan := { x := 0, y := 0 }, zoom := 1 } (-50000) 0).pan ≠
      clampPosition (dragStepCombined { pan := { x := 0, y := 0 }, zoom := 1 } (-50000) 0).zoom
        (dragStepCombined { pan := { x := 0, y := 0 }, zoom := 1 } (-50000) 0).pan 800 600 ∧
    (zoomStep (dragStep { pan := { x := 0, y := 0 }, zoom := 1 } (-20000) 0 4000 600)
        0 0 (-(1 / 20)) 4000 600).pan ≠
      clampPosition
        (zoomStep (dragStep { pan := { x := 0, y := 0 }, zoom := 1 } (-20000) 0 4000 600)
          0 0 (-(1 / 20)) 4000 600).zoom
        (zoomStep (dragStep { pan := { x := 0, y := 0 }, zoom := 1 } (-20000) 0 4000 600)
          0 0 (-(1 / 20)) 4000 600).pan 4000 600 := by
  constructor
  · norm_num [dragStepCombined, clampPosition, WORLD_SIZE, Position.mk.injEq, min_def, max_def]
  · norm_num [dragStep, zoomStep, zoomRawPan, updateZoom, clampPosition, WORLD_SIZE,
      MIN_ZOOM, MAX_ZOOM, Position.mk.injEq, min_def, max_def]

/-- One axis of the C4 (amended) overlap argument. -/
theorem axis_overlap (p z cs : ℚ) (hz : (0 : ℚ) < z)
    (hfix : min (WORLD_SIZE / 4) (max (-(WORLD_SIZE * z) + cs - WORLD_SIZE / 4) p) = p)
    (hcs : WORLD_SIZE / 2 * z + WORLD_SIZE / 4 < cs) :
    max (worldToScreen p z (-WORLD_SIZE / 2)) 0 < min (worldToScreen p z (WORLD_SIZE / 2)) cs := by
  simp only [WORLD_SIZE] at hfix hcs ⊢
  have hple : p ≤ 10000 / 4 := by
    rw [← hfix]; exact min_le_left _ _
  simp only [worldToScreen, max_lt_iff, lt_min_iff]
  rcases le_total (max (-(10000 * z) + cs - 10000 / 4) p) ((10000 : ℚ) / 4) with hc | hc
  · rw [min_eq_right hc] at hfix
    have hBp : -(10000 * z) + cs - 10000 / 4 ≤ p := hfix ▸ le_max_left _ _
    refine ⟨⟨?_, ?_⟩, ?_, ?_⟩ <;> nlinarith
  · rw [min_eq_left hc] at hfix
    have hp : p = 10000 / 4 := hfix.symm
    refine ⟨⟨?_, ?_⟩, ?_, ?_⟩ <;> nlinarith

/-- C4 (amended): for every `(pan, zoom)` with zoom in
`[MIN_ZOOM, MAX_ZOOM]` that is a fixed point of the clamp for container
size `(w, h)`, and provided the container exceeds
`WORLD_SIZE/2 * zoom + WORLD_SIZE/4` on each axis, the screen-space
projection of the world-bounds rectangle under `screen = world*zoom + pan`
overlaps the container rectangle `[0, w] x [0, h]` with non-empty area
(per axis: the intersection of the projected interval with the container
interval has positive length). -/
theorem world_overlaps_container (px py z w h : ℚ)
    (hz1 : MIN_ZOOM ≤ z) (hz2 : z ≤ MAX_ZOOM)
    (hfix : clampPosition z { x := px, y := py } w h = { x := px, y := py })
    (hw : WORLD_SIZE / 2 * z + WORLD_SIZE / 4 < w)
    (hh : WORLD_SIZE / 2 * z + WORLD_SIZE / 4 < h) :
    max (worldToScreen px z WORLD_BOUNDS.left) 0 < min (worldToScreen px z WORLD_BOUNDS.right) w ∧
    max (worldToScreen py z WORLD_BOUNDS.top) 0 < min (worldToScreen py z WORLD_BOUNDS.bottom) h := by
  have hz : (0 : ℚ) < z := lt_of_lt_of_le (by norm_num [MIN_ZOOM]) hz1
  simp only [clampPosition, Position.mk.injEq] at hfix
  have hb : WORLD_BOUNDS.left = -WORLD_SIZE / 2 ∧ WORLD_BOUNDS.top = -WORLD_SIZE / 2 ∧
      WORLD_BOUNDS.right = WORLD_SIZE / 2 ∧ WORLD_BOUNDS.bottom = WORLD_SIZE / 2 :=
    ⟨rfl, rfl, rfl, rfl⟩
  rw [hb.1, hb.2.1, hb.2.2.1, hb.2.2.2]
  exact ⟨axis_overlap px z w hz hfix.1 hw, axis_overlap py z h hz hfix.2 hh⟩

/-- Witness for C4 (amended): zoom 1, container 8000 by 8000, pan (0,0)
is a clamp fixed point, the container bound holds, and the projected
world rectangle overlaps the container with non-empty area. -/
theorem world_overlaps_container_witness :
    MIN_ZOOM ≤ (1 : ℚ) ∧ (1 : ℚ) ≤ MAX_ZOOM ∧
    clampPosition 1 { x := 0, y := 0 } 8000 8000 = { x := 0, y := 0 } ∧
    WORLD_SIZE / 2 * 1 + WORLD_SIZE / 4 < (8000 : ℚ) ∧
    (max (worldToScreen 0 1 WORLD_BOUNDS.left) 0 < min (worldToScreen 0 1 WORLD_BOUNDS.right) 8000 ∧
     max (worldToScreen 0 1 WORLD_BOUNDS.top) 0 < min (worldToScreen 0 1 WORLD_BOUNDS.bottom) 8000) := by
  have hfix : clampPosition 1 { x := 0, y := 0 } 8000 8000 = { x := 0, y := 0 } := by
    norm_num [clampPosition, WORLD_SIZE, Position.mk.injEq, min_def, max_def]
  have hw : WORLD_SIZE / 2 * 1 + WORLD_SIZE / 4 < (8000 : ℚ) := by norm_num [WORLD_SIZE]
  exact ⟨by norm_num [MIN_ZOOM], by norm_num [MAX_ZOOM], hfix, hw,
    world_overlaps_container 0 0 1 8000 8000 (by norm_num [MIN_ZOOM]) (by norm_num [MAX_ZOOM])
      hfix hw hw⟩

/-- Counterexample for C4 as stated: `zoom = 1` is in range, container
800 by 600, `pan = (-11700, 0)` is a fixed point of the clamp, yet the
projected world rectangle `[-16700, -6700]` is disjoint from the
container interval `[0, 800]` on the x axis — the world is panned
entirely offscreen. -/
theorem world_overlap_cex :
    MIN_ZOOM ≤ (1 : ℚ) ∧ (1 : ℚ) ≤ MAX_ZOOM ∧
    clampPosition 1 { x := -11700, y := 0 } 800 600 = { x := -11700, y := 0 } ∧
    min (worldToScreen (-11700) 1 WORLD_BOUNDS.right) 800 ≤
      max (worldToScreen (-11700) 1 WORLD_BOUNDS.left) 0 := by
  refine ⟨by norm_num [MIN_ZOOM], by norm_num [MAX_ZOOM], ?_, ?_⟩
  · norm_num [clampPosition, WORLD_SIZE, Position.mk.injEq, min_def, max_def]
  · norm_num [worldToScreen, WORLD_BOUNDS, WORLD_SIZE, min_def, max_def]

/-- Closed form of repeated zoom-out: from any zoom in
`[MIN_ZOOM, MAX_ZOOM]`, `n` zoom-out steps land on
`max MIN_ZOOM (z - n * ZOOM_STEP)`. -/
theorem zoomOutN_closed (n : ℕ) : ∀ z : ℚ, MIN_ZOOM ≤ z → z ≤ MAX_ZOOM →
    zoomOutN n z = max MIN_ZOOM (z - n * ZOOM_STEP) := by
  induction n with
  | zero =>
    intro z h1 h2
    simp [zoomOutN, max_eq_right h1]
  | succ n ih =>
    intro z h1 h2
    have hn : (0 : ℚ) ≤ (n : ℚ) := Nat.cast_nonneg n
    have hle : z + -ZOOM_STEP ≤ MAX_ZOOM := by
      simp only [ZOOM_STEP] at *
      linarith
    have hstep : updateZoom z (-ZOOM_STEP) = max MIN_ZOOM (z - ZOOM_STEP) := by
      unfold updateZoom
      rw [min_eq_right hle]
      ring_nf
    have hb2 : max MIN_ZOOM (z - ZOOM_STEP) ≤ MAX_ZOOM := by
      apply max_le
      · norm_num [MIN_ZOOM, MAX_ZOOM]
      · simp only [ZOOM_STEP] at *
        linarith
    show zoomOutN n (updateZoom z (-ZOOM_STEP)) = _
    rw [hstep, ih _ (le_max_left _ _) hb2]
    rcases le_total (z - ZOOM_STEP) MIN_ZOOM with hc | hc
    · have hz1 : (0 : ℚ) ≤ (n : ℚ) * ZOOM_STEP := by
        apply mul_nonneg hn
        norm_num [ZOOM_STEP]
      rw [max_eq_left hc, max_eq_left (by linarith), max_eq_left (by push_cast; nlinarith)]
    · rw [max_eq_right hc]
      push_cast
      congr 1
      ring

/-- C8: every zoom update is `max(MIN_ZOOM, min(MAX_ZOOM, zoom + delta))`,
hence confined to `[0.3, 1.8]`; repeated zoom-out pins the zoom at exactly
`MIN_ZOOM` (30 steps suffice from anywhere in range, and `MIN_ZOOM` is a
fixed point of further zoom-out); the zoom-out control is disabled exactly
when `zoom ≤ MIN_ZOOM` and the zoom-in control exactly when
`zoom ≥ MAX_ZOOM`. -/
theorem zoom_confined :
    (∀ z delta : ℚ, MIN_ZOOM ≤ updateZoom z delta ∧ updateZoom z delta ≤ MAX_ZOOM) ∧
    (∀ n : ℕ, zoomOutN n MIN_ZOOM = MIN_ZOOM) ∧
    (∀ z : ℚ, MIN_ZOOM ≤ z → z ≤ MAX_ZOOM → zoomOutN 30 z = MIN_ZOOM) ∧
    (∀ z : ℚ, (zoomOutDisabled z = true ↔ z ≤ MIN_ZOOM) ∧
      (zoomInDisabled z = true ↔ MAX_ZOOM ≤ z)) := by
  refine ⟨?_, ?_, ?_, ?_⟩
  · intro z delta
    exact ⟨le_max_left _ _, max_le (by norm_num [MIN_ZOOM, MAX_ZOOM]) (min_le_left _ _)⟩
  · intro n
    have hn : (0 : ℚ) ≤ (n : ℚ) * ZOOM_STEP := by
      apply mul_nonneg (Nat.cast_nonneg n)
      norm_num [ZOOM_STEP]
    rw [zoomOutN_closed n MIN_ZOOM le_rfl (by norm_num [MIN_ZOOM, MAX_ZOOM]),
      max_eq_left (by linarith)]
  · intro z h1 h2
    rw [zoomOutN_closed 30 z h1 h2, max_eq_left]
    push_cast
    simp only [MIN_ZOOM, MAX_ZOOM, ZOOM_STEP] at *
    linarith
  · intro z
    constructor
    · simp [zoomOutDisabled]
    · simp [zoomInDisabled, ge_iff_le]

/-- Witness for C8: starting from zoom 1, thirty zoom-out steps land
exactly on `MIN_ZOOM = 0.3`. -/
theorem zoom_confined_witness :
    MIN_ZOOM ≤ (1 : ℚ) ∧ (1 : ℚ) ≤ MAX_ZOOM ∧ zoomOutN 30 1 = MIN_ZOOM :=
  ⟨by norm_num [MIN_ZOOM], by norm_num [MAX_ZOOM],
    zoom_confined.2.2.1 1 (by norm_num [MIN_ZOOM]) (by norm_num [MAX_ZOOM])⟩

/-- Membership in one axis of the grid loop: exactly the multiples of 50
between `floor(lo/SPACING)*SPACING` and `ceil(hi/SPACING)*SPACING`. -/
theorem mem_gridXs (lo hi : ℚ) (x : ℤ) :
    x ∈ gridXs lo hi ↔ (50 : ℤ) ∣ x ∧ gridStart lo ≤ x ∧ x ≤ gridEnd hi := by
  simp only [gridXs, gridStart, gridEnd]
  set a := ⌊lo / SPACING⌋ with ha
  set b := ⌈hi / SPACING⌉ with hb
  by_cases hab : (50 * a : ℤ) ≤ 50 * b
  · rw [if_pos hab]
    simp only [List.mem_map, List.mem_range]
    constructor
    · rintro ⟨k, hk, rfl⟩
      exact ⟨⟨a + (k : ℤ), by ring⟩, by omega, by omega⟩
    · rintro ⟨⟨c, rfl⟩, hsx, hxe⟩
      exact ⟨(c - a).toNat, by omega, by omega⟩
  · rw [if_neg hab]
    simp only [List.not_mem_nil, false_iff, not_and]
    intro _ h1 h2
    exact hab (h1.trans h2)

/-- C6 (amended): the PanExample/part_007 grid generator produces exactly
the lattice points whose coordinates are multiples of `SPACING = 50` with
`x ∈ [floor(left/SPACING)*SPACING, ceil(right/SPACING)*SPACING]` and
analogously for `y`; consequently every coordinate in `[left, right]`
(resp. `[top, bottom]`) lies inside a generated grid cell of width
`SPACING` — there is no gap wider than `SPACING`.  The combined canvas
(part_003) `generateDots` instead emits exactly the 41 by 41 points
`(-pan/zoom + i*SPACING, -pan/zoom + j*SPACING)` for `i, j ≤ 40`,
anchored at the top-left corner of the shown rectangle over a fixed
2000 by 2000 extent that ignores its right/bottom edges, and these are
not in general multiples of `SPACING`. -/
theorem gridPoints_covering :
    (∀ (v : Viewport) (q : ℤ × ℤ),
        q ∈ gridPoints v ↔
          ((50 : ℤ) ∣ q.1 ∧ gridStart v.left ≤ q.1 ∧ q.1 ≤ gridEnd v.right) ∧
          ((50 : ℤ) ∣ q.2 ∧ gridStart v.top ≤ q.2 ∧ q.2 ≤ gridEnd v.bottom)) ∧
    (∀ lo hi r : ℚ, lo ≤ r → r ≤ hi →
        ∃ x ∈ gridXs lo hi, (x : ℚ) ≤ r ∧ r < (x : ℚ) + SPACING) ∧
    (∀ (pan : Position) (zoom : ℚ) (p : ℚ × ℚ),
        p ∈ generateDots pan zoom ↔
          ∃ i j : ℕ, i ≤ 40 ∧ j ≤ 40 ∧
            p = (-pan.x / zoom + (i : ℚ) * SPACING, -pan.y / zoom + (j : ℚ) * SPACING)) := by
  have h50 : (0 : ℚ) < SPACING := by norm_num [SPACING]
  have h40 : (⌈(2000 : ℚ) / SPACING⌉).toNat = 40 := by
    rw [show (2000 : ℚ) / SPACING = ((40 : ℤ) : ℚ) by norm_num [SPACING], Int.ceil_intCast]
    rfl
  refine ⟨?_, ?_, ?_⟩
  case refine_3 =>
    intro pan zoom p
    simp only [generateDots, List.mem_flatMap, List.mem_map, List.mem_range, h40]
    constructor
    · rintro ⟨i, hi, j, hj, rfl⟩
      exact ⟨i, j, by omega, by omega, rfl⟩
    · rintro ⟨i, j, hi, hj, rfl⟩
      exact ⟨i, by omega, j, by omega, rfl⟩
  · intro v q
    obtain ⟨qx, qy⟩ := q
    simp only [gridPoints, List.mem_flatMap, List.mem_map]
    constructor
    · rintro ⟨x, hx, y, hy, heq⟩
      obtain ⟨rfl, rfl⟩ := Prod.mk.injEq .. ▸ heq
      exact ⟨(mem_gridXs _ _ _).1 hx, (mem_gridXs _ _ _).1 hy⟩
    · rintro ⟨h1, h2⟩
      exact ⟨qx, (mem_gridXs _ _ _).2 h1, qy, (mem_gridXs _ _ _).2 h2, rfl⟩
  · intro lo hi r hlo hhi
    refine ⟨50 * ⌊r / SPACING⌋, ?_, ?_, ?_⟩
    · rw [mem_gridXs]
      refine ⟨⟨⌊r / SPACING⌋, rfl⟩, ?_, ?_⟩
      · have hfl : ⌊lo / SPACING⌋ ≤ ⌊r / SPACING⌋ :=
          Int.floor_le_floor ((div_le_div_right h50).mpr hlo)
        unfold gridStart
        omega
      · have hfl : ⌊r / SPACING⌋ ≤ ⌈hi / SPACING⌉ :=
          le_trans (Int.floor_le_floor ((div_le_div_right h50).mpr hhi)) (Int.floor_le_ceil _)
        unfold gridEnd
        omega
    · have hf : (⌊r / SPACING⌋ : ℚ) ≤ r / SPACING := Int.floor_le _
      have := (le_div_iff h50).mp hf
      push_cast
      simp only [SPACING] at *
      linarith
    · have hf : r / SPACING < (⌊r / SPACING⌋ : ℚ) + 1 := Int.lt_floor_add_one _
      have := (div_lt_iff h50).mp hf
      push_cast
      simp only [SPACING] at *
      linarith

/-- Witness for C6 (amended) coverage: in the interval `[-130, 100]` the
coordinate `0` lies in a generated grid cell. -/
theorem gridPoints_covering_witness :
    (-130 : ℚ) ≤ 0 ∧ (0 : ℚ) ≤ 100 ∧
    ∃ x ∈ gridXs (-130) 100, (x : ℚ) ≤ 0 ∧ (0 : ℚ) < (x : ℚ) + SPACING :=
  ⟨by norm_num, by norm_num, gridPoints_covering.2.1 (-130) 100 0 (by norm_num) (by norm_num)⟩

/-- Counterexample for C6 as stated: the claim also covers the combined
canvas generator `generateDots` (part_003 lines 75-106), but at
`pan = (-25, 0)`, `zoom = 1` that generator emits the dot `(25, 0)`,
whose x coordinate is not an integer multiple of `SPACING = 50` — so its
output is not the claimed lattice point set. -/
theorem grid_lattice_cex :
    ((25 : ℚ), (0 : ℚ)) ∈ generateDots { x := -25, y := 0 } 1 ∧
    ¬∃ k : ℤ, (25 : ℚ) = 50 * (k : ℚ) := by
  constructor
  · simp only [generateDots, List.mem_flatMap, List.mem_map, List.mem_range]
    refine ⟨0, by norm_num, 0, by norm_num, ?_⟩
    norm_num [SPACING, Prod.ext_iff]
  · rintro ⟨k, hk⟩
    have h : (25 : ℤ) = 50 * k := by exact_mod_cast hk
    omega

end PanZoom
